import Mathlib

/-!
Shallow embedding of `get_amedas_progressbar.py`: the value converters
(`str2float`, `str2windir`, `mj2w`), the row extractor inside `scraping`,
the structural checks of `scraping`, and the retry loop
`fetch_url_with_retry`.  Strings are Lean strings, Python floats are
modelled as rationals (all constants in the program are exact decimals),
and the external collaborators (urllib, BeautifulSoup) are modelled as
explicit data: an HTTP response record and a parsed-document record.
-/

namespace Amedas

/-- Characters removed by Python `str.strip()`: ASCII whitespace plus the
single-byte and ideographic spaces that occur in the scraped pages. -/
def isPySpace (c : Char) : Bool :=
  c = ' ' || c = '\t' || c = '\n' || c = '\r' || c = '\x0b' || c = '\x0c' ||
  c = ' ' || c = '　'

/-- Strip `isPySpace` characters from both ends of a character list,
modelling Python `str.strip()`. -/
def stripChars (l : List Char) : List Char :=
  (l.dropWhile isPySpace).rdropWhile isPySpace

/-- Python `s.strip()`. -/
def pyStrip (s : String) : String :=
  String.mk (stripChars s.toList)

/-- Python `s.replace(')', '')`: every occurrence of the close-parenthesis
character is deleted. -/
def removeParen (s : String) : String :=
  String.mk (s.toList.filter (fun c => c ≠ ')'))

/-- The cleanup both converters apply: `s.replace(')', '').strip()`. -/
def clean (s : String) : String :=
  pyStrip (removeParen s)

/-- Decimal digit test for the `float()` model. -/
def isDigitCh (c : Char) : Bool :=
  '0' ≤ c && c ≤ '9'

/-- Value of a digit list read in base 10 (empty list reads as 0). -/
def digitsVal (l : List Char) : Nat :=
  l.foldl (fun n c => 10 * n + (c.toNat - 48)) 0

/-- Mantissa of a decimal literal: digits with at most one decimal point,
at least one digit in total.  Returns the exact rational value. -/
def parseMantissa (l : List Char) : Option ℚ :=
  match l.splitOn '.' with
  | [ip] =>
    if ip ≠ [] && ip.all isDigitCh then some (digitsVal ip) else none
  | [ip, fp] =>
    if (ip ≠ [] || fp ≠ []) && ip.all isDigitCh && fp.all isDigitCh then
      some ((digitsVal ip : ℚ) + (digitsVal fp : ℚ) / 10 ^ fp.length)
    else none
  | _ => none

/-- Exponent part of a decimal literal: optional sign then nonempty digits. -/
def parseExpPart (l : List Char) : Option ℤ :=
  match l with
  | '+' :: r => if r ≠ [] && r.all isDigitCh then some (digitsVal r) else none
  | '-' :: r => if r ≠ [] && r.all isDigitCh then some (-(digitsVal r : ℤ)) else none
  | r => if r ≠ [] && r.all isDigitCh then some (digitsVal r) else none

/-- Model of Python `float(s)` on decimal literals: optional surrounding
whitespace, optional sign, digits with an optional decimal point, optional
`e`/`E` exponent.  `none` models the `ValueError` raise.  (The `inf`/`nan`
spellings and digit-group underscores accepted by CPython never occur in
the scraped cells and are out of scope of this model.) -/
def pyFloat (s : String) : Option ℚ :=
  let l := (stripChars s.toList).map Char.toLower
  let sm : ℚ × List Char :=
    match l with
    | '+' :: r => (1, r)
    | '-' :: r => (-1, r)
    | _ => (1, l)
  match sm.2.splitOn 'e' with
  | [m] => (parseMantissa m).map (fun v => sm.1 * v)
  | [m, e] =>
    match parseMantissa m, parseExpPart e with
    | some mv, some ev => some (sm.1 * mv * 10 ^ ev)
    | _, _ => none
  | _ => none

/-- `REQUEST_INTERVAL = 1`. -/
def REQUEST_INTERVAL : ℚ := 1

/-- `MISSING_VALUE = -9999`. -/
def MISSING_VALUE : ℚ := -9999

/-- `MAX_RETRIES = 3`. -/
def MAX_RETRIES : Nat := 3

/-- `BACKOFF_FACTOR = 0.5`. -/
def BACKOFF_FACTOR : ℚ := 0.5

/-- The `WIND_DIRECTION` table: compass-point name to angle in degrees,
with the calm token `静穏` mapped to 0. -/
def WIND_DIRECTION : List (String × ℚ) :=
  [("北", 0), ("北北東", 22.5), ("北東", 45), ("東北東", 67.5),
   ("東", 90), ("東南東", 112.5), ("南東", 135), ("南南東", 157.5),
   ("南", 180), ("南南西", 202.5), ("南西", 225), ("西南西", 247.5),
   ("西", 270), ("西北西", 292.5), ("北西", 315), ("北北西", 337.5),
   ("静穏", 0)]

/-- `str2windir`: `None`, `'#'`, `'×'` give the missing value; otherwise
`)` and surrounding whitespace are removed and the table is consulted,
a failed lookup (the `KeyError` branch) giving the missing value. -/
def str2windir (wind_str : Option String) : ℚ :=
  match wind_str with
  | none => MISSING_VALUE
  | some s =>
    if s = "#" ∨ s = "×" then MISSING_VALUE
    else (WIND_DIRECTION.lookup (clean s)).getD MISSING_VALUE

/-- `str2float`: `None` gives `0.0`; otherwise `)` and surrounding
whitespace are removed, `"--"` gives `0.0`, a parseable number gives its
value, and anything else (the `ValueError` branch) gives the missing
value. -/
def str2float (weather_data : Option String) : ℚ :=
  match weather_data with
  | none => 0
  | some s =>
    if clean s = "--" then 0
    else (pyFloat (clean s)).getD MISSING_VALUE

/-- `mj2w`: nonnegative values are converted from MJ/m2 to W/m2, negative
values are clamped to `0.0`. -/
def mj2w (mj_value : ℚ) : ℚ :=
  if 0 ≤ mj_value then mj_value * 10 ^ 6 / 3600 else 0

/-- A `datetime.date` as carried through `scraping` (opaque payload). -/
structure Date where
  year : Int
  month : Nat
  day : Nat
deriving DecidableEq, Repr

/-- One cell of an output row: the date, a raw text cell (`tds[0].string`,
possibly `None`), or a converted number. -/
inductive Val where
| vdate (d : Date)
| vtext (s : Option String)
| vnum (q : ℚ)
deriving DecidableEq

/-- The `data_row` list built for one table row with at least 14 cells:
date, raw hour text, then the 13 converted measurements in source order.
A cell is `tds[i].string`, i.e. an optional string. -/
def data_row (date : Date) (tds : List (Option String)) : List Val :=
  [Val.vdate date,
   Val.vtext (tds.getD 0 none),
   Val.vnum (str2float (tds.getD 1 none)),
   Val.vnum (str2float (tds.getD 2 none)),
   Val.vnum (str2float (tds.getD 3 none)),
   Val.vnum (str2float (tds.getD 4 none)),
   Val.vnum (str2float (tds.getD 5 none)),
   Val.vnum (str2float (tds.getD 6 none)),
   Val.vnum (str2float (tds.getD 7 none)),
   Val.vnum (str2float (tds.getD 8 none)),
   Val.vnum (str2windir (tds.getD 9 none)),
   Val.vnum (str2float (tds.getD 10 none)),
   Val.vnum (mj2w (str2float (tds.getD 11 none))),
   Val.vnum (str2float (tds.getD 12 none)),
   Val.vnum (str2float (tds.getD 13 none))]

/-- The row-extraction loop of `scraping`: skip the first two header rows,
skip any row with fewer than 14 cells, convert each remaining row. -/
def data_list_per_hour (date : Date) (trs : List (List (Option String))) :
    List (List Val) :=
  (trs.drop 2).filterMap
    (fun tds => if tds.length < 14 then none else some (data_row date tds))

/-- The parsed document as `scraping` inspects it: presence of the
top-level `html`/`head`/`body` elements, and the rows of the table with
class `data2_s` when such a table is found. -/
structure Document where
  hasHtml : Bool
  hasHead : Bool
  hasBody : Bool
  data2s : Option (List (List (Option String)))

/-- A fetched HTTP response: status code and parsed body. -/
structure HttpResponse where
  getcode : Nat
  doc : Document

/-- The post-fetch part of `scraping` on a successfully fetched response:
`sys.exit(1)` (modelled as `Except.error 1`) when the status is not 200,
when `html`/`head`/`body` is missing, or when no `data2_s` table exists;
otherwise the extracted rows. -/
def scraping (response : HttpResponse) (date : Date) :
    Except Nat (List (List Val)) :=
  if response.getcode ≠ 200 then Except.error 1
  else if ¬(response.doc.hasHtml = true ∧ response.doc.hasHead = true ∧
            response.doc.hasBody = true) then Except.error 1
  else
    match response.doc.data2s with
    | none => Except.error 1
    | some trs => Except.ok (data_list_per_hour date trs)

/-- One simulated run of the retry loop of `fetch_url_with_retry` from
attempt index `i`: `att j` is the outcome of attempt `j` (`none` models a
`URLError`).  Returns the response if some attempt succeeds (`none` models
the final `raise`), the number of attempts made, and the list of sleep
durations in order (`backoff_factor * 2 ** j`, slept only after a failed
attempt that is not the last one). -/
def fetchFrom {α : Type} (att : Nat → Option α) (bf : ℚ) (mr i : Nat) :
    Option α × Nat × List ℚ :=
  if i < mr then
    match att i with
    | some r => (some r, 1, [])
    | none =>
      let rest := fetchFrom att bf mr (i + 1)
      (rest.1, rest.2.1 + 1,
        (if i < mr - 1 then [bf * 2 ^ i] else []) ++ rest.2.2)
  else (none, 0, [])
termination_by mr - i

/-- `fetch_url_with_retry`, as the simulated loop started at attempt 0. -/
def fetch_url_with_retry {α : Type} (att : Nat → Option α)
    (max_retries : Nat) (backoff_factor : ℚ) : Option α × Nat × List ℚ :=
  fetchFrom att backoff_factor max_retries 0

end Amedas

namespace Amedas

/-- C1: `str2float` is total and returns 0 on absent input, 0 on the
cleaned two-character dash token, the parsed value when the cleaned text
parses as a float, and the missing-value sentinel otherwise; in
particular `str2float "12.3 )" = 12.3` and `str2float "×" = -9999`. -/
theorem str2float_spec :
    str2float none = 0 ∧
    (∀ s, clean s = "--" → str2float (some s) = 0) ∧
    (∀ s v, pyFloat (clean s) = some v → str2float (some s) = v) ∧
    (∀ s, pyFloat (clean s) = none → clean s ≠ "--" →
      str2float (some s) = MISSING_VALUE) ∧
    str2float (some "12.3 )") = 12.3 ∧
    str2float (some "×") = MISSING_VALUE := by
  have hnum : ∀ s v, pyFloat (clean s) = some v → str2float (some s) = v := by
    intro s v h
    have hdash : pyFloat "--" = none := by rfl
    have hne : clean s ≠ "--" := by
      intro he
      rw [he, hdash] at h
      exact Option.noConfusion h
    simp [str2float, hne, h]
  refine ⟨rfl, ?_, hnum, ?_, ?_, by rfl⟩
  · intro s h
    simp [str2float, h]
  · intro s h hne
    simp [str2float, hne, h]
  · have h := hnum "12.3 )" ((1 : ℚ) * (↑(12 : ℕ) + ↑(3 : ℕ) / 10 ^ (1 : ℕ)))
      (by rfl)
    rw [h]
    norm_num

/-- Witness for C1 at a concrete input. -/
theorem str2float_spec_witness : str2float (some "7.5") = 7.5 := by
  have h := str2float_spec.2.2.1 "7.5"
    ((1 : ℚ) * (↑(7 : ℕ) + ↑(5 : ℕ) / 10 ^ (1 : ℕ))) (by rfl)
  rw [h]
  norm_num

/-- C2: `mj2w` clamps negative inputs (the sentinel included) to 0 and
otherwise multiplies by `10 ^ 6 / 3600`. -/
theorem mj2w_spec :
    (∀ x : ℚ, x < 0 → mj2w x = 0) ∧
    (∀ x : ℚ, 0 ≤ x → mj2w x = x * 10 ^ 6 / 3600) ∧
    mj2w 1 = 1000000 / 3600 ∧
    mj2w (-1) = 0 ∧
    mj2w MISSING_VALUE = 0 := by
  refine ⟨?_, ?_, by norm_num [mj2w], by norm_num [mj2w],
    by norm_num [mj2w, MISSING_VALUE]⟩
  · intro x hx
    simp [mj2w, not_le.mpr hx]
  · intro x hx
    simp [mj2w, hx]

/-- Witness for C2 at concrete inputs. -/
theorem mj2w_spec_witness :
    mj2w (-2) = 0 ∧ mj2w 2 = 2 * 10 ^ 6 / 3600 :=
  ⟨mj2w_spec.1 (-2) (by norm_num), mj2w_spec.2.1 2 (by norm_num)⟩

/-- C3: every entry of the `WIND_DIRECTION` table (the 16 compass points
with their multiples of 22.5 degrees, and the calm token mapped to 0) is
returned by `str2windir`, also when the name carries a trailing ` )`. -/
theorem str2windir_table_spec :
    (∀ nm v, (nm, v) ∈ WIND_DIRECTION →
      str2windir (some nm) = v ∧ str2windir (some (nm ++ " )")) = v) ∧
    str2windir (some "静穏") = 0 := by
  refine ⟨?_, by rfl⟩
  intro nm v h
  fin_cases h <;> exact ⟨by rfl, by rfl⟩

/-- Witness for C3 at a concrete table entry. -/
theorem str2windir_table_spec_witness :
    str2windir (some "北東") = 45 ∧ str2windir (some ("北東" ++ " )")) = 45 :=
  str2windir_table_spec.1 "北東" 45 (by decide)

/-- C4 counterexample: the calm token is in the lookup table, so
`str2windir` maps it to 0, not to the missing-value sentinel. -/
theorem str2windir_calm_counterexample :
    str2windir (some "静穏") = 0 ∧ str2windir (some "静穏") ≠ MISSING_VALUE := by
  have h0 : str2windir (some "静穏") = 0 := by rfl
  refine ⟨h0, ?_⟩
  rw [h0]
  norm_num [MISSING_VALUE]

/-- C4 amended: the placeholder glyphs and absent input give the
missing-value sentinel, while the calm token gives 0. -/
theorem str2windir_missing_spec :
    str2windir (some "#") = MISSING_VALUE ∧
    str2windir (some "×") = MISSING_VALUE ∧
    str2windir none = MISSING_VALUE ∧
    str2windir (some "静穏") = 0 :=
  ⟨rfl, rfl, rfl, rfl⟩

/-- C5 counterexample: empty and whitespace-only text fall through to the
`float()` branch, which fails, so the sentinel is returned, not 0. -/
theorem str2float_empty_counterexample :
    str2float (some "") = MISSING_VALUE ∧
    str2float (some " ") = MISSING_VALUE ∧
    (MISSING_VALUE : ℚ) ≠ 0 :=
  ⟨rfl, rfl, by norm_num [MISSING_VALUE]⟩

/-- C5 amended: only absent input (`None`) gives 0.0; empty and
whitespace-only strings give the missing-value sentinel. -/
theorem str2float_empty_spec :
    str2float none = 0 ∧
    str2float (some "") = MISSING_VALUE ∧
    str2float (some " ") = MISSING_VALUE :=
  ⟨rfl, rfl, rfl⟩

/-- C7: a row with at least 14 cells yields exactly the 15 fields in
source order: date, raw hour text, `str2float` of cells 1-8, `str2windir`
of cell 9, `str2float` of cell 10, `mj2w` of `str2float` of cell 11, and
`str2float` of cells 12 and 13. -/
theorem data_row_fields (d : Date)
    (a0 a1 a2 a3 a4 a5 a6 a7 a8 a9 a10 a11 a12 a13 : Option String)
    (rest : List (Option String)) :
    data_row d (a0 :: a1 :: a2 :: a3 :: a4 :: a5 :: a6 :: a7 :: a8 :: a9 ::
        a10 :: a11 :: a12 :: a13 :: rest) =
      [Val.vdate d,
       Val.vtext a0,
       Val.vnum (str2float a1),
       Val.vnum (str2float a2),
       Val.vnum (str2float a3),
       Val.vnum (str2float a4),
       Val.vnum (str2float a5),
       Val.vnum (str2float a6),
       Val.vnum (str2float a7),
       Val.vnum (str2float a8),
       Val.vnum (str2windir a9),
       Val.vnum (str2float a10),
       Val.vnum (mj2w (str2float a11)),
       Val.vnum (str2float a12),
       Val.vnum (str2float a13)] ∧
    (data_row d (a0 :: a1 :: a2 :: a3 :: a4 :: a5 :: a6 :: a7 :: a8 :: a9 ::
        a10 :: a11 :: a12 :: a13 :: rest)).length = 15 :=
  ⟨rfl, rfl⟩

end Amedas

namespace Amedas

/-- The filterMap of the extraction loop is a filter-then-map: kept rows
are exactly those with at least 14 cells, each fully converted. -/
theorem extract_eq (d : Date) (l : List (List (Option String))) :
    l.filterMap
        (fun tds => if tds.length < 14 then none else some (data_row d tds)) =
      (l.filter (fun tds => decide (14 ≤ tds.length))).map (data_row d) := by
  induction l with
  | nil => rfl
  | cons tds l ih =>
    by_cases h : tds.length < 14
    · have h2 : ¬ 14 ≤ tds.length := by omega
      simp [List.filterMap_cons, List.filter_cons, h, h2, ih]
    · have h2 : 14 ≤ tds.length := by omega
      simp [List.filterMap_cons, List.filter_cons, h, h2, ih]

/-- The extraction loop keeps one record per row not dropped by the
cell-count guard. -/
theorem extract_length (d : Date) (l : List (List (Option String))) :
    (l.filterMap
        (fun tds => if tds.length < 14 then none else some (data_row d tds))).length =
      l.length - (l.filter (fun tds => decide (tds.length < 14))).length := by
  induction l with
  | nil => rfl
  | cons tds l ih =>
    have hle := List.length_filter_le (fun tds : List (Option String) =>
      decide (tds.length < 14)) l
    by_cases h : tds.length < 14
    · simp [List.filterMap_cons, List.filter_cons, h, ih]
      try omega
    · simp [List.filterMap_cons, List.filter_cons, h, ih]
      try omega

/-- C6: the extractor drops the 2 header rows, keeps exactly the data rows
with at least 14 cells in their relative order, and converts each kept row
whole; so N data rows of which M are short give N - M records. -/
theorem data_list_per_hour_spec (d : Date) (trs : List (List (Option String))) :
    data_list_per_hour d trs =
      ((trs.drop 2).filter (fun tds => decide (14 ≤ tds.length))).map
        (data_row d) ∧
    (data_list_per_hour d trs).length =
      (trs.drop 2).length -
        ((trs.drop 2).filter (fun tds => decide (tds.length < 14))).length :=
  ⟨extract_eq d (trs.drop 2), extract_length d (trs.drop 2)⟩

/-- A prefix of a list already stripped at the front is itself stripped at
the front. -/
theorem dropWhile_prefix_self {p : Char → Bool} {l m : List Char}
    (hl : l.dropWhile p = l) (hm : m <+: l) : m.dropWhile p = m := by
  rw [List.dropWhile_eq_self_iff] at hl ⊢
  intro h0
  rw [hm.get_eq h0]
  exact hl _

/-- Stripping both ends only removes elements. -/
theorem stripChars_sublist (l : List Char) : (stripChars l).Sublist l :=
  ((List.rdropWhile_prefix _ _).sublist).trans
    ((List.dropWhile_suffix _).sublist)

/-- Stripping both ends is idempotent. -/
theorem stripChars_idem (l : List Char) :
    stripChars (stripChars l) = stripChars l := by
  have h1 : (List.dropWhile isPySpace l).dropWhile isPySpace =
      List.dropWhile isPySpace l := List.dropWhile_idempotent _ _
  show List.rdropWhile isPySpace
      (List.dropWhile isPySpace
        ((l.dropWhile isPySpace).rdropWhile isPySpace)) = stripChars l
  rw [dropWhile_prefix_self h1 (List.rdropWhile_prefix _ _)]
  exact List.rdropWhile_idempotent _ _

/-- Character-level view of `clean`. -/
theorem clean_toList (s : String) :
    (clean s).toList = stripChars (s.toList.filter (fun c => c ≠ ')')) := rfl

/-- The character-level cleanup is idempotent: its output has no `)` and
no surrounding whitespace left to remove. -/
theorem cleanChars_idem (l : List Char) :
    stripChars
        ((stripChars (l.filter (fun c => c ≠ ')'))).filter (fun c => c ≠ ')')) =
      stripChars (l.filter (fun c => c ≠ ')')) := by
  have hsub := stripChars_sublist (l.filter (fun c => c ≠ ')'))
  have hfil : (stripChars (l.filter (fun c => c ≠ ')'))).filter
      (fun c => c ≠ ')') = stripChars (l.filter (fun c => c ≠ ')')) := by
    apply List.filter_eq_self.mpr
    intro c hc
    exact (List.mem_filter.mp (hsub.subset hc)).2
  rw [hfil, stripChars_idem]

/-- `clean` is idempotent. -/
theorem clean_idem (s : String) : clean (clean s) = clean s :=
  congrArg String.mk (cleanChars_idem s.toList)

/-- C10: both converters delete every `)` in the input (not only trailing
ones) and strip surrounding whitespace before parsing or lookup, so each
converter is invariant under pre-cleaning its input, and `"1)2"` parses
as the number 12. -/
theorem paren_strip_spec :
    (∀ s, str2float (some s) = str2float (some (clean s))) ∧
    (∀ s, str2windir (some s) = str2windir (some (clean s))) ∧
    str2float (some "1)2") = 12 := by
  refine ⟨?_, ?_, ?_⟩
  · intro s
    simp only [str2float, clean_idem]
  · intro s
    by_cases h1 : s = "#" ∨ s = "×"
    · rcases h1 with rfl | rfl <;> rfl
    · by_cases h2 : clean s = "#" ∨ clean s = "×"
      · have hl : WIND_DIRECTION.lookup (clean s) = none := by
          rcases h2 with h2 | h2 <;> rw [h2] <;> rfl
        have hL : str2windir (some s) = MISSING_VALUE := by
          simp only [str2windir, if_neg h1, hl, Option.getD_none]
        have hR : str2windir (some (clean s)) = MISSING_VALUE := by
          simp only [str2windir, if_pos h2]
        rw [hL, hR]
      · simp only [str2windir, if_neg h1, if_neg h2, clean_idem]
  · have hne : ¬(clean "1)2" = "--") := by decide
    have h : pyFloat (clean "1)2") = some ((1 : ℚ) * ((12 : ℕ) : ℚ)) := by rfl
    simp only [str2float, h, if_neg hne, Option.getD_some]
    norm_num

end Amedas

namespace Amedas

/-- C8: on a fetched response, `scraping` exits the process (modelled as
`Except.error`, always with the non-zero code 1) exactly when the status
is not 200, a top-level `html`/`head`/`body` element is missing, or no
table with class `data2_s` is found; otherwise it returns the row
extractor's output. -/
theorem scraping_spec (resp : HttpResponse) (d : Date) :
    (scraping resp d = Except.error 1 ↔
      (resp.getcode ≠ 200 ∨
        ¬(resp.doc.hasHtml = true ∧ resp.doc.hasHead = true ∧
          resp.doc.hasBody = true) ∨
        resp.doc.data2s = none)) ∧
    (∀ c, scraping resp d = Except.error c → c ≠ 0) ∧
    (∀ trs, resp.getcode = 200 → resp.doc.hasHtml = true →
      resp.doc.hasHead = true → resp.doc.hasBody = true →
      resp.doc.data2s = some trs →
      scraping resp d = Except.ok (data_list_per_hour d trs)) := by
  obtain ⟨code, hh, hd, hb, tbl⟩ := resp
  unfold scraping
  by_cases h200 : code = 200 <;> cases hh <;> cases hd <;> cases hb <;>
    cases tbl <;> simp_all

/-- Witness for C8 on a concrete well-formed response. -/
theorem scraping_spec_witness :
    scraping ⟨200, ⟨true, true, true, some []⟩⟩ ⟨2000, 1, 1⟩ =
      Except.ok [] := by
  have h := (scraping_spec ⟨200, ⟨true, true, true, some []⟩⟩
    ⟨2000, 1, 1⟩).2.2 [] rfl rfl rfl rfl rfl
  simpa [data_list_per_hour] using h

end Amedas

namespace Amedas

/-- When every attempt from `i` on fails, the loop runs to exhaustion:
no response, `mr - i` attempts, and a sleep after every failed attempt
except the final one. -/
theorem fetchFrom_all_fail {α : Type} (att : Nat → Option α) (bf : ℚ)
    (mr : Nat) :
    ∀ n i, mr - i ≤ n → (∀ k, i ≤ k → k < mr → att k = none) →
      fetchFrom att bf mr i =
        (none, mr - i, (List.range' i (mr - 1 - i)).map (fun k => bf * 2 ^ k)) := by
  intro n
  induction n with
  | zero =>
    intro i hn h
    have hi : ¬ i < mr := by omega
    rw [fetchFrom, if_neg hi]
    have e1 : mr - i = 0 := by omega
    have e2 : mr - 1 - i = 0 := by omega
    rw [e1, e2]
    simp
  | succ n ih =>
    intro i hn h
    by_cases hi : i < mr
    · rw [fetchFrom, if_pos hi, h i le_rfl hi,
        ih (i + 1) (by omega) (fun k hk1 hk2 => h k (by omega) hk2)]
      by_cases h2 : i < mr - 1
      · rw [if_pos h2]
        have e2 : mr - 1 - i = (mr - 1 - (i + 1)) + 1 := by omega
        have e1 : mr - (i + 1) + 1 = mr - i := by omega
        rw [e2, List.range'_succ]
        simp [e1]
      · rw [if_neg h2]
        have e1 : mr - (i + 1) + 1 = mr - i := by omega
        have e2 : mr - 1 - i = 0 := by omega
        have e3 : mr - 1 - (i + 1) = 0 := by omega
        rw [e2, e3]
        simp [e1]
    · rw [fetchFrom, if_neg hi]
      have e1 : mr - i = 0 := by omega
      have e2 : mr - 1 - i = 0 := by omega
      rw [e1, e2]
      simp

/-- When attempt `j` is the first success at or after `i`, the loop stops
there: it returns that response, makes `j - i + 1` attempts, and sleeps
exactly after each of the failed attempts `i, ..., j - 1`. -/
theorem fetchFrom_success {α : Type} (att : Nat → Option α) (bf : ℚ)
    (mr : Nat) :
    ∀ n i j r, j - i ≤ n → i ≤ j → j < mr → att j = some r →
      (∀ k, i ≤ k → k < j → att k = none) →
      fetchFrom att bf mr i =
        (some r, j - i + 1, (List.range' i (j - i)).map (fun k => bf * 2 ^ k)) := by
  intro n
  induction n with
  | zero =>
    intro i j r hn hij hj ha hk
    have heq : i = j := by omega
    subst heq
    rw [fetchFrom, if_pos (by omega : i < mr), ha, Nat.sub_self]
    simp
  | succ n ih =>
    intro i j r hn hij hj ha hk
    by_cases heq : i = j
    · subst heq
      rw [fetchFrom, if_pos (by omega : i < mr), ha, Nat.sub_self]
      simp
    · have hlt : i < j := by omega
      rw [fetchFrom, if_pos (by omega : i < mr), hk i le_rfl hlt,
        ih (i + 1) j r (by omega) (by omega) hj ha
          (fun k h1 h2 => hk k (by omega) h2)]
      rw [if_pos (by omega : i < mr - 1)]
      have e : j - i = (j - (i + 1)) + 1 := by omega
      rw [e, List.range'_succ]
      simp

/-- The loop never makes more than `mr - i` attempts from index `i`. -/
theorem fetchFrom_count_le {α : Type} (att : Nat → Option α) (bf : ℚ)
    (mr : Nat) :
    ∀ n i, mr - i ≤ n → (fetchFrom att bf mr i).2.1 ≤ mr - i := by
  intro n
  induction n with
  | zero =>
    intro i hn
    have hi : ¬ i < mr := by omega
    rw [fetchFrom, if_neg hi]
    simp
  | succ n ih =>
    intro i hn
    by_cases hi : i < mr
    · rw [fetchFrom, if_pos hi]
      cases ha : att i with
      | some r =>
        simp
        omega
      | none =>
        have hrest := ih (i + 1) (by omega)
        simp
        omega
    · rw [fetchFrom, if_neg hi]
      simp

/-- C9: `fetch_url_with_retry` makes at most `max_retries` attempts (the
source default `MAX_RETRIES` is 3), fails exactly when every attempt
fails, and on the first success at attempt `j` returns that response after
`j + 1` attempts having slept `backoff_factor * 2 ^ k` after each failed
attempt `k`; on exhaustion it sleeps after every failed attempt but the
last, so the delay doubles attempt over attempt. -/
theorem fetch_url_with_retry_spec {α : Type} (att : Nat → Option α)
    (mr : Nat) (bf : ℚ) :
    MAX_RETRIES = 3 ∧
    (fetch_url_with_retry att mr bf).2.1 ≤ mr ∧
    ((fetch_url_with_retry att mr bf).1 = none ↔ ∀ i, i < mr → att i = none) ∧
    (∀ j r, j < mr → att j = some r → (∀ k, k < j → att k = none) →
      fetch_url_with_retry att mr bf =
        (some r, j + 1, (List.range j).map (fun k => bf * 2 ^ k))) ∧
    ((∀ i, i < mr → att i = none) →
      fetch_url_with_retry att mr bf =
        (none, mr, (List.range (mr - 1)).map (fun k => bf * 2 ^ k))) := by
  have hfail : (∀ i, i < mr → att i = none) →
      fetch_url_with_retry att mr bf =
        (none, mr, (List.range (mr - 1)).map (fun k => bf * 2 ^ k)) := by
    intro h
    have hrun := fetchFrom_all_fail att bf mr mr 0 (by omega)
      (fun k hk1 hk2 => h k hk2)
    unfold fetch_url_with_retry
    rw [hrun]
    simp [List.range_eq_range']
  have hsucc : ∀ j r, j < mr → att j = some r →
      (∀ k, k < j → att k = none) →
      fetch_url_with_retry att mr bf =
        (some r, j + 1, (List.range j).map (fun k => bf * 2 ^ k)) := by
    intro j r hj ha hk
    have hrun := fetchFrom_success att bf mr j 0 j r (by omega) (by omega) hj ha
      (fun k h1 h2 => hk k h2)
    unfold fetch_url_with_retry
    rw [hrun]
    simp [List.range_eq_range']
  refine ⟨rfl, ?_, ?_, hsucc, hfail⟩
  · have h := fetchFrom_count_le att bf mr mr 0 (by omega)
    simpa [fetch_url_with_retry] using h
  · constructor
    · intro hres
      classical
      by_contra hnot
      push_neg at hnot
      obtain ⟨j, hj, hne⟩ := hnot
      have hex : ∃ j, j < mr ∧ att j ≠ none := ⟨j, hj, hne⟩
      obtain ⟨hj0lt, hj0ne⟩ := Nat.find_spec hex
      obtain ⟨r, hr⟩ := Option.ne_none_iff_exists'.mp hj0ne
      have hmin : ∀ k, k < Nat.find hex → att k = none := by
        intro k hk
        have hnk := Nat.find_min hex hk
        by_contra hkne
        exact hnk ⟨by omega, hkne⟩
      have heq := hsucc (Nat.find hex) r hj0lt hr hmin
      rw [heq] at hres
      exact Option.noConfusion hres
    · intro h
      rw [hfail h]

/-- Witness for C9: success on the second of three attempts, after one
sleep of the backoff factor. -/
theorem fetch_url_with_retry_spec_witness :
    fetch_url_with_retry (fun i => if i = 1 then some 7 else none) 3
        (1 / 2 : ℚ) =
      (some 7, 2, [1 / 2]) := by
  have h := (fetch_url_with_retry_spec
      (fun i => if i = 1 then some (7 : Nat) else none) 3 (1 / 2)).2.2.2.1 1 7
    (by omega) rfl
    (by
      intro k hk
      have hk0 : k = 0 := by omega
      subst hk0
      rfl)
  rw [h]
  norm_num [List.range_succ, List.range_zero]

end Amedas
